import Mathlib

/-!
Shallow embedding of the Solana staking program in `src/src/lib.rs`
(`process_instruction` and its four instructions GenerateVault, Stake,
Withdraw, Claim), together with theorems settling the specification
claims.  Machine integers are modelled as `Nat`/`Int` with explicit
`% 2^64` / `% 2^128` where the Rust release build wraps, and explicit
cast functions where the source casts (`i64 as u128`, `u128 as u64`).
Public keys are 32-byte values modelled as the natural number whose
little-endian 32-byte expansion is the raw key bytes.
-/

namespace StakingProgram

/-- Little-endian byte encoding of a natural number, fixed width `w`
(mirrors how borsh lays out `u64` fields and `Pubkey::to_bytes`). -/
def natToLE : Nat → Nat → List Nat
  | 0, _ => []
  | w + 1, n => (n % 256) :: natToLE w (n / 256)

/-- Read a little-endian byte list back as a natural number. -/
def leToNat : List Nat → Nat
  | [] => 0
  | b :: bs => b + 256 * leToNat bs

/-- Two's-complement encoding of an `i64` as 8 little-endian bytes. -/
def encodeI64 (x : Int) : List Nat :=
  natToLE 8 ((x % (2 ^ 64 : Int)).toNat)

/-- Decode 8 little-endian bytes as a two's-complement `i64`. -/
def decodeI64 (bs : List Nat) : Int :=
  let n := leToNat bs
  if n < 2 ^ 63 then (n : Int) else (n : Int) - 2 ^ 64

/-- The `StakeData` record (`src/src/lib.rs` lines 35-41):
32-byte staker pubkey, `u64` amount, `u64` remained_reward,
`i64` last_claim_time. -/
structure StakeData where
  staker : Nat
  amount : Nat
  remained_reward : Nat
  last_claim_time : Int
  deriving DecidableEq, Repr

/-- Borsh serialization of `StakeData` (56 bytes). -/
def encodeStakeData (sd : StakeData) : List Nat :=
  natToLE 32 sd.staker ++ (natToLE 8 sd.amount ++
    (natToLE 8 sd.remained_reward ++ encodeI64 sd.last_claim_time))

/-- Borsh `StakeData::try_from_slice`: succeeds exactly on a 56-byte
buffer (every field is fixed-width, and the strict deserializer
requires the buffer to be fully consumed). -/
def decodeStakeData (bs : List Nat) : Option StakeData :=
  if bs.length = 56 then
    some { staker := leToNat (bs.take 32)
           amount := leToNat ((bs.drop 32).take 8)
           remained_reward := leToNat (((bs.drop 32).drop 8).take 8)
           last_claim_time := decodeI64 (((bs.drop 32).drop 8).drop 8) }
  else none

/-- Well-formed record: every field fits its machine width. -/
def StakeData.WF (sd : StakeData) : Prop :=
  sd.staker < 2 ^ 256 ∧ sd.amount < 2 ^ 64 ∧ sd.remained_reward < 2 ^ 64 ∧
    -(2 ^ 63) ≤ sd.last_claim_time ∧ sd.last_claim_time < 2 ^ 63

/-- Wrapping `i64` subtraction result: reduce an integer into
`[-2^63, 2^63)` (release-mode two's-complement wraparound). -/
def i64Wrap (x : Int) : Int :=
  (x + 2 ^ 63) % (2 ^ 64 : Int) - 2 ^ 63

/-- The Rust cast `i64 as u128`: sign-extend and reinterpret.  For
`x ∈ [-2^63, 2^63)` this is `x mod 2^128`. -/
def u128OfI64 (x : Int) : Nat :=
  (x % (2 ^ 128 : Int)).toNat

/-- The reward expression of `src/src/lib.rs` lines 176-179 (identical at
lines 302-305 and 427-430):
`stake_data.amount as u128 * (timestamp - last_claim_time) as u128
 * REWARD_GENERATE_RATE as u128 / 10000`
with `u128` multiplications wrapping modulo `2^128` (release build). -/
def rewardOf (amount : Nat) (now last : Int) : Nat :=
  ((amount * u128OfI64 (i64Wrap (now - last))) % 2 ^ 128 * 250) % 2 ^ 128 / 10000

/-- The record mutation of the Stake active branch
(`src/src/lib.rs` lines 176-183): `amount += amount` (wrapping `u64`),
`remained_reward = (remained_reward as u128 + reward) as u64`,
`last_claim_time = timestamp`. -/
def stakeUpdate (sd : StakeData) (amt : Nat) (now : Int) : StakeData :=
  { staker := sd.staker
    amount := (sd.amount + amt) % 2 ^ 64
    remained_reward := (sd.remained_reward + rewardOf sd.amount now sd.last_claim_time) % 2 ^ 128 % 2 ^ 64
    last_claim_time := now }

/-- The record mutation of Withdraw (`src/src/lib.rs` lines 302-309);
the guard `amount > stake_data.amount` has already been checked, so the
`u64` subtraction cannot underflow. -/
def withdrawUpdate (sd : StakeData) (amt : Nat) (now : Int) : StakeData :=
  { staker := sd.staker
    amount := sd.amount - amt
    remained_reward := (sd.remained_reward + rewardOf sd.amount now sd.last_claim_time) % 2 ^ 128 % 2 ^ 64
    last_claim_time := now }

/-- The record mutation and payout of Claim (`src/src/lib.rs` lines
427-433): `reward_amount = (remained_reward as u128 + reward) as u64`,
`remained_reward = 0`, `last_claim_time = timestamp`; returns the new
record and the paid-out `reward_amount`. -/
def claimUpdate (sd : StakeData) (now : Int) : StakeData × Nat :=
  ({ staker := sd.staker
     amount := sd.amount
     remained_reward := 0
     last_claim_time := now },
   (sd.remained_reward + rewardOf sd.amount now sd.last_claim_time) % 2 ^ 128 % 2 ^ 64)

/-- The hard-coded administrator / mint pubkey
`5kuLovV9TxV7784KJd97WHhgXTeuX47t6iyuvyqH6BwV`
(`src/src/lib.rs` lines 56-64), as the natural number whose 32-byte
little-endian expansion is the decoded key. -/
def adminKey : Nat :=
  3668875268554764659169081586628239264206438571703094471952450512613200604486

/-- The `stake_token_mint` constant: literally the same pubkey string as
the administrator (`src/src/lib.rs` lines 59-61). -/
def stakeTokenMint : Nat := adminKey

/-- The `reward_token_mint` constant: also the same pubkey string
(`src/src/lib.rs` lines 62-64). -/
def rewardTokenMint : Nat := adminKey

/-- View of a supplied `AccountInfo`: key, signer flag, owner, lamport
balance and data buffer (the fields the program reads or writes). -/
structure AccountInfo where
  key : Nat
  isSigner : Bool
  owner : Nat
  lamports : Nat
  data : List Nat
  deriving DecidableEq, Repr

/-- A token transfer the program asks the external token ledger to
perform: source holding account, destination holding account, authority
and amount. -/
structure Transfer where
  source : Nat
  dest : Nat
  authority : Nat
  amount : Nat
  deriving DecidableEq, Repr

/-- The ten accounts consumed (in order) by Stake, Withdraw and Claim. -/
structure StakeAccounts where
  payer : AccountInfo
  stakeDataInfo : AccountInfo
  mintInfo : AccountInfo
  vaultPdaInfo : AccountInfo
  vaultPdaMintHolderInfo : AccountInfo
  vaultMintHolderInfo : AccountInfo
  tokenInfo : AccountInfo
  assocAccountInfo : AccountInfo
  sysInfo : AccountInfo
  rentInfo : AccountInfo
  deriving DecidableEq, Repr

/-- The four accounts consumed by GenerateVault. -/
structure VaultAccounts where
  payer : AccountInfo
  pda : AccountInfo
  systemProgram : AccountInfo
  rentInfo : AccountInfo
  deriving DecidableEq, Repr

/-- Execution context supplied by the host environment: the program id,
the pure deterministic address deriver (`find_program_address` on the
stake seeds and on the vault seed, and the associated-token-address
function), the rent sysvar, and the clock timestamp. -/
structure Ctx where
  programId : Nat
  deriveStake : Nat → Nat × Nat
  deriveVault : Nat × Nat
  ata : Nat → Nat → Nat
  rentMinBalance : Nat → Nat
  now : Int

/-- Errors surfaced through `ProgramResult`: the program returns
`ProgramError::Custom code` at its own checks, and
`NotEnoughAccountKeys` when `next_account_info` runs out of accounts. -/
inductive ProgErr where
  | custom : Nat → ProgErr
  | notEnoughKeys : ProgErr
  deriving DecidableEq, Repr

/-- Result of one instruction over state `σ`: success with the final
state and the token transfers performed, an error carrying the state at
the moment of the early return, or a panic (an aborted `unwrap`). -/
inductive ExecResult (σ : Type) where
  | ok : σ → List Transfer → ExecResult σ
  | err : ProgErr → σ → ExecResult σ
  | panicked : σ → ExecResult σ
  deriving DecidableEq, Repr

/-- Lazy creation of the vault holding account
(`spl_associated_token_account::create_associated_token_account` when
its storage is not owned by the token program; `src/src/lib.rs` lines
188-206): afterwards the account is owned by the token program. -/
def provisionVaultHolder (a : StakeAccounts) : StakeAccounts :=
  if a.vaultPdaMintHolderInfo.owner ≠ a.tokenInfo.key then
    { a with vaultPdaMintHolderInfo :=
        { a.vaultPdaMintHolderInfo with owner := a.tokenInfo.key } }
  else a

/-- Lazy creation of the staker's personal holding account
(`src/src/lib.rs` lines 313-331 and 437-455). -/
def provisionUserHolder (a : StakeAccounts) : StakeAccounts :=
  if a.vaultMintHolderInfo.owner ≠ a.tokenInfo.key then
    { a with vaultMintHolderInfo :=
        { a.vaultMintHolderInfo with owner := a.tokenInfo.key } }
  else a

/-- Embedding of the Stake arm of `process_instruction`
(`src/src/lib.rs` lines 67-225), checks in source order. -/
def stakeProcess (ctx : Ctx) (amt : Nat) (a : StakeAccounts) :
    ExecResult StakeAccounts :=
  let dataAddress := (ctx.deriveStake a.payer.key).1
  let vaultPda := ctx.deriveVault.1
  let vaultPdaMintHolder := ctx.ata vaultPda a.mintInfo.key
  let vaultMintHolder := ctx.ata a.payer.key a.mintInfo.key
  if ¬ a.payer.isSigner then .err (.custom 0x31) a
  else if a.stakeDataInfo.key ≠ dataAddress then .err (.custom 0x32) a
  else if a.mintInfo.key ≠ stakeTokenMint then .err (.custom 0x33) a
  else if vaultPdaMintHolder ≠ a.vaultPdaMintHolderInfo.key then .err (.custom 0x34) a
  else if vaultMintHolder ≠ a.vaultMintHolderInfo.key then .err (.custom 0x34) a
  else
    let timestamp := ctx.now
    let afterRecord : Option StakeAccounts :=
      if a.stakeDataInfo.owner ≠ ctx.programId then
        -- initialize the stake PDA: fund, allocate 56 bytes, assign to
        -- the program, then serialize the fresh record
        let required := max (ctx.rentMinBalance 56) 1 - a.stakeDataInfo.lamports
        some { a with
          payer := { a.payer with lamports := a.payer.lamports - required }
          stakeDataInfo := { a.stakeDataInfo with
            lamports := a.stakeDataInfo.lamports + required
            owner := ctx.programId
            data := encodeStakeData
              { staker := a.payer.key, amount := amt
                remained_reward := 0, last_claim_time := timestamp } } }
      else
        match decodeStakeData a.stakeDataInfo.data with
        | none => none
        | some sd =>
          if a.payer.key ≠ sd.staker then none
          else
            some { a with stakeDataInfo := { a.stakeDataInfo with
              data := encodeStakeData (stakeUpdate sd amt timestamp) } }
    match afterRecord with
    | none =>
      -- the two error exits inside the active branch, in source order
      match decodeStakeData a.stakeDataInfo.data with
      | none => .err (.custom 0x35) a
      | some _ => .err (.custom 0x36) a
    | some a1 =>
      -- lazily create the vault holding account, then transfer the
      -- staked tokens into the vault, authorized by the payer
      .ok (provisionVaultHolder a1)
        [{ source := a.vaultMintHolderInfo.key
           dest := a.vaultPdaMintHolderInfo.key
           authority := a.payer.key, amount := amt }]

/-- Embedding of the Withdraw arm (`src/src/lib.rs` lines 226-350),
checks in source order. -/
def withdrawProcess (ctx : Ctx) (amt : Nat) (a : StakeAccounts) :
    ExecResult StakeAccounts :=
  let dataAddress := (ctx.deriveStake a.payer.key).1
  let vaultPda := ctx.deriveVault.1
  let vaultPdaMintHolder := ctx.ata vaultPda a.mintInfo.key
  let vaultMintHolder := ctx.ata a.payer.key a.mintInfo.key
  if ¬ a.payer.isSigner then .err (.custom 0x41) a
  else if a.stakeDataInfo.key ≠ dataAddress then .err (.custom 0x42) a
  else if a.stakeDataInfo.owner ≠ ctx.programId then .err (.custom 0x43) a
  else if a.mintInfo.key ≠ stakeTokenMint then .err (.custom 0x44) a
  else if vaultPdaMintHolder ≠ a.vaultPdaMintHolderInfo.key then .err (.custom 0x45) a
  else if vaultMintHolder ≠ a.vaultMintHolderInfo.key then .err (.custom 0x45) a
  else
    let timestamp := ctx.now
    match decodeStakeData a.stakeDataInfo.data with
    | none => .err (.custom 0x46) a
    | some sd =>
      if a.payer.key ≠ sd.staker then .err (.custom 0x47) a
      else if amt > sd.amount then .err (.custom 0x48) a
      else
        let a1 := { a with stakeDataInfo := { a.stakeDataInfo with
          data := encodeStakeData (withdrawUpdate sd amt timestamp) } }
        -- lazily create the user holding account, then transfer back
        -- to the user, authorized by the supplied vault pda account
        .ok (provisionUserHolder a1)
          [{ source := a.vaultPdaMintHolderInfo.key
             dest := a.vaultMintHolderInfo.key
             authority := a.vaultPdaInfo.key, amount := amt }]

/-- Embedding of the Claim arm (`src/src/lib.rs` lines 351-474),
checks in source order. -/
def claimProcess (ctx : Ctx) (a : StakeAccounts) :
    ExecResult StakeAccounts :=
  let dataAddress := (ctx.deriveStake a.payer.key).1
  let vaultPda := ctx.deriveVault.1
  let vaultPdaMintHolder := ctx.ata vaultPda a.mintInfo.key
  let vaultMintHolder := ctx.ata a.payer.key a.mintInfo.key
  if ¬ a.payer.isSigner then .err (.custom 0x51) a
  else if a.stakeDataInfo.key ≠ dataAddress then .err (.custom 0x52) a
  else if a.stakeDataInfo.owner ≠ ctx.programId then .err (.custom 0x53) a
  else if a.mintInfo.key ≠ rewardTokenMint then .err (.custom 0x54) a
  else if vaultPdaMintHolder ≠ a.vaultPdaMintHolderInfo.key then .err (.custom 0x55) a
  else if a.vaultPdaMintHolderInfo.owner ≠ a.tokenInfo.key then .err (.custom 0x55) a
  else if vaultMintHolder ≠ a.vaultMintHolderInfo.key then .err (.custom 0x56) a
  else
    let timestamp := ctx.now
    match decodeStakeData a.stakeDataInfo.data with
    | none => .err (.custom 0x57) a
    | some sd =>
      if a.payer.key ≠ sd.staker then .err (.custom 0x58) a
      else
        let upd := claimUpdate sd timestamp
        let a1 := { a with stakeDataInfo := { a.stakeDataInfo with
          data := encodeStakeData upd.1 } }
        .ok (provisionUserHolder a1)
          [{ source := a.vaultPdaMintHolderInfo.key
             dest := a.vaultMintHolderInfo.key
             authority := a.vaultPdaInfo.key, amount := upd.2 }]

/-- Embedding of the GenerateVault arm (`src/src/lib.rs` lines 475-514),
checks in source order. -/
def generateVaultProcess (ctx : Ctx) (g : VaultAccounts) :
    ExecResult VaultAccounts :=
  let vaultPda := ctx.deriveVault.1
  if g.pda.key ≠ vaultPda then .err (.custom 0x00) g
  else if g.pda.owner = ctx.programId then .err (.custom 0x01) g
  else if g.payer.key ≠ adminKey ∨ ¬ g.payer.isSigner then .err (.custom 0x02) g
  else
    let required := max (ctx.rentMinBalance 0) 1 - g.pda.lamports
    .ok { g with
      payer := { g.payer with lamports := g.payer.lamports - required }
      pda := { g.pda with
        lamports := g.pda.lamports + required
        owner := ctx.programId } } []

/-- The instruction enum (`src/src/lib.rs` lines 21-33). -/
inductive MarketplaceInstruction where
  | generateVault : MarketplaceInstruction
  | stake : Nat → MarketplaceInstruction
  | withdraw : Nat → MarketplaceInstruction
  | claim : MarketplaceInstruction
  deriving DecidableEq, Repr

/-- Borsh decoding of the instruction payload as performed by
`try_from_slice_unchecked` (`src/src/lib.rs` line 50): a `u8`
discriminant 0-3, a little-endian `u64` payload for Stake/Withdraw,
trailing bytes tolerated (unchecked variant); anything else fails. -/
def decodeInstruction : List Nat → Option MarketplaceInstruction
  | 0 :: _ => some .generateVault
  | 1 :: rest =>
    if rest.length ≥ 8 then some (.stake (leToNat (rest.take 8))) else none
  | 2 :: rest =>
    if rest.length ≥ 8 then some (.withdraw (leToNat (rest.take 8))) else none
  | 3 :: _ => some .claim
  | _ => none

/-- Pull the ten accounts of Stake/Withdraw/Claim off the account list
(`next_account_info` in source order); `none` when too few. -/
def takeStakeAccounts : List AccountInfo → Option (StakeAccounts × List AccountInfo)
  | p :: s :: m :: v :: vh :: uh :: t :: aa :: sy :: r :: rest =>
    some (⟨p, s, m, v, vh, uh, t, aa, sy, r⟩, rest)
  | _ => none

/-- Pull the four accounts of GenerateVault off the account list. -/
def takeVaultAccounts : List AccountInfo → Option (VaultAccounts × List AccountInfo)
  | p :: d :: s :: r :: rest => some (⟨p, d, s, r⟩, rest)
  | _ => none

/-- Rebuild the account list from the updated Stake/Withdraw/Claim
accounts. -/
def listOfStakeAccounts (a : StakeAccounts) : List AccountInfo :=
  [a.payer, a.stakeDataInfo, a.mintInfo, a.vaultPdaInfo,
   a.vaultPdaMintHolderInfo, a.vaultMintHolderInfo, a.tokenInfo,
   a.assocAccountInfo, a.sysInfo, a.rentInfo]

/-- Rebuild the account list from the updated GenerateVault accounts. -/
def listOfVaultAccounts (g : VaultAccounts) : List AccountInfo :=
  [g.payer, g.pda, g.systemProgram, g.rentInfo]

/-- Re-attach the untouched tail of the account list to an instruction
arm result. -/
def mapResult {σ : Type} (f : σ → List AccountInfo) (rest : List AccountInfo) :
    ExecResult σ → ExecResult (List AccountInfo)
  | .ok s trs => .ok (f s ++ rest) trs
  | .err e s => .err e (f s ++ rest)
  | .panicked s => .panicked (f s ++ rest)

/-- Embedding of `process_instruction` (`src/src/lib.rs` lines 44-518):
decode the payload with `unwrap` (a non-decoding payload panics), pull
the accounts the arm needs, dispatch. -/
def processInstruction (ctx : Ctx) (accounts : List AccountInfo)
    (instructionData : List Nat) : ExecResult (List AccountInfo) :=
  match decodeInstruction instructionData with
  | none => .panicked accounts
  | some .generateVault =>
    match takeVaultAccounts accounts with
    | none => .err .notEnoughKeys accounts
    | some (g, rest) => mapResult listOfVaultAccounts rest (generateVaultProcess ctx g)
  | some (.stake amt) =>
    match takeStakeAccounts accounts with
    | none => .err .notEnoughKeys accounts
    | some (a, rest) => mapResult listOfStakeAccounts rest (stakeProcess ctx amt a)
  | some (.withdraw amt) =>
    match takeStakeAccounts accounts with
    | none => .err .notEnoughKeys accounts
    | some (a, rest) => mapResult listOfStakeAccounts rest (withdrawProcess ctx amt a)
  | some .claim =>
    match takeStakeAccounts accounts with
    | none => .err .notEnoughKeys accounts
    | some (a, rest) => mapResult listOfStakeAccounts rest (claimProcess ctx a)

/-! ### Arithmetic and serialization lemmas -/

theorem natToLE_length (w n : Nat) : (natToLE w n).length = w := by
  induction w generalizing n with
  | zero => rfl
  | succ w ih => simp [natToLE, ih]

theorem leToNat_natToLE (w n : Nat) : leToNat (natToLE w n) = n % 256 ^ w := by
  induction w generalizing n with
  | zero =>
    simp only [natToLE, leToNat, pow_zero, Nat.mod_one]
  | succ w ih =>
    simp only [natToLE, leToNat, ih, pow_succ]
    rw [Nat.mul_comm (256 ^ w) 256, Nat.mod_mul]

theorem leToNat_lt (w n : Nat) : leToNat (natToLE w n) < 256 ^ w := by
  rw [leToNat_natToLE]; exact Nat.mod_lt _ (Nat.pos_pow_of_pos _ (by norm_num))

theorem take_append_of_length {l r : List Nat} {w : Nat} (h : l.length = w) :
    (l ++ r).take w = l := by
  subst h; simp

theorem drop_append_of_length {l r : List Nat} {w : Nat} (h : l.length = w) :
    (l ++ r).drop w = r := by
  subst h; simp

theorem decodeI64_encodeI64 (x : Int) (h1 : -(2 ^ 63) ≤ x) (h2 : x < 2 ^ 63) :
    decodeI64 (encodeI64 x) = x := by
  unfold decodeI64 encodeI64
  rw [leToNat_natToLE]
  have hlt : (x % (2 ^ 64 : Int)).toNat < 2 ^ 64 := by omega
  have hmod : (x % (2 ^ 64 : Int)).toNat % 256 ^ 8 = (x % (2 ^ 64 : Int)).toNat := by
    apply Nat.mod_eq_of_lt; norm_num at hlt ⊢; omega
  rw [hmod]
  simp only []
  split <;> rename_i hb <;> omega

theorem encodeI64_length (x : Int) : (encodeI64 x).length = 8 := by
  unfold encodeI64; exact natToLE_length _ _

theorem decode_encodeStakeData (sd : StakeData) (h : sd.WF) :
    decodeStakeData (encodeStakeData sd) = some sd := by
  obtain ⟨h1, h2, h3, h4, h5⟩ := h
  unfold decodeStakeData encodeStakeData
  have l32 : (natToLE 32 sd.staker).length = 32 := natToLE_length _ _
  have l8a : (natToLE 8 sd.amount).length = 8 := natToLE_length _ _
  have l8r : (natToLE 8 sd.remained_reward).length = 8 := natToLE_length _ _
  have l8t : (encodeI64 sd.last_claim_time).length = 8 := encodeI64_length _
  have hlen : (natToLE 32 sd.staker ++ (natToLE 8 sd.amount ++
      (natToLE 8 sd.remained_reward ++ encodeI64 sd.last_claim_time))).length = 56 := by
    simp [l32, l8a, l8r, l8t]
  rw [if_pos hlen]
  rw [take_append_of_length l32, drop_append_of_length l32,
      take_append_of_length l8a, drop_append_of_length l8a,
      take_append_of_length l8r, drop_append_of_length l8r]
  have e1 : leToNat (natToLE 32 sd.staker) = sd.staker := by
    rw [leToNat_natToLE]; apply Nat.mod_eq_of_lt; norm_num at h1 ⊢; omega
  have e2 : leToNat (natToLE 8 sd.amount) = sd.amount := by
    rw [leToNat_natToLE]; apply Nat.mod_eq_of_lt; norm_num at h2 ⊢; omega
  have e3 : leToNat (natToLE 8 sd.remained_reward) = sd.remained_reward := by
    rw [leToNat_natToLE]; apply Nat.mod_eq_of_lt; norm_num at h3 ⊢; omega
  have e4 : decodeI64 (encodeI64 sd.last_claim_time) = sd.last_claim_time :=
    decodeI64_encodeI64 _ h4 h5
  rw [e1, e2, e3, e4]

theorem i64Wrap_eq_self (x : Int) (h1 : -(2 ^ 63) ≤ x) (h2 : x < 2 ^ 63) :
    i64Wrap x = x := by
  unfold i64Wrap; omega

theorem u128OfI64_of_nonneg (x : Int) (h0 : 0 ≤ x) (h : x < 2 ^ 128) :
    u128OfI64 x = x.toNat := by
  unfold u128OfI64
  rw [Int.emod_eq_of_lt h0 h]

/-- On a non-negative, non-wrapping elapsed time with no `u128`
overflow, the code's reward expression is the exact floor formula. -/
theorem rewardOf_eval (S : Nat) (now last : Int) (h0 : last ≤ now)
    (hd : now - last < 2 ^ 63)
    (hov : S * (now - last).toNat * 250 < 2 ^ 128) :
    rewardOf S now last = S * (now - last).toNat * 250 / 10000 := by
  unfold rewardOf
  rw [i64Wrap_eq_self _ (by omega) hd,
      u128OfI64_of_nonneg _ (by omega) (by omega)]
  have h1 : S * (now - last).toNat ≤ S * (now - last).toNat * 250 :=
    Nat.le_mul_of_pos_right _ (by norm_num)
  rw [Nat.mod_eq_of_lt (show S * (now - last).toNat < 2 ^ 128 by omega),
      Nat.mod_eq_of_lt hov]

/-! ### Splitting an accrual interval at intermediate checkpoints -/

/-- Checkpoint times in ascending order, starting from `t`. -/
def Ascending : Int → List Int → Prop
  | _, [] => True
  | t, c :: cs => t ≤ c ∧ Ascending c cs

/-- The final checkpoint of `t` followed by `cs`. -/
def lastTime (t : Int) : List Int → Int
  | [] => t
  | c :: cs => lastTime c cs

/-- Total reward accrued when the interval from `t` is split at each
checkpoint in `cs`, each sub-interval floored on its own (exactly what
repeated Claim calls produce). -/
def splitAccrual (S : Nat) (t : Int) : List Int → Nat
  | [] => 0
  | c :: cs => rewardOf S c t + splitAccrual S c cs

theorem le_lastTime (t : Int) (cs : List Int) (h : Ascending t cs) :
    t ≤ lastTime t cs := by
  induction cs generalizing t with
  | nil => simp [lastTime]
  | cons c cs ih =>
    obtain ⟨htc, hasc⟩ := h
    exact le_trans htc (ih c hasc)

theorem reward_exact_div (S d : Nat) (hS : S % 40 = 0) :
    S * d * 250 / 10000 = S / 40 * d := by
  obtain ⟨m, rfl⟩ : ∃ m, S = 40 * m := ⟨S / 40, by omega⟩
  rw [show 40 * m * d * 250 = 10000 * (m * d) by ring,
      Nat.mul_div_cancel_left _ (by norm_num),
      Nat.mul_div_cancel_left _ (by norm_num : 0 < 40)]

/-- C1 — counterexample: stake `S = 1` held from `t = 0` to `t = 40`
with one intervening Claim at `t = 20`.  The two Claim payouts total
`0`, while a single Claim over the whole interval pays
`floor(1 * 40 * 250 / 10000) = 1`: splitting the interval does NOT
yield the same total. -/
theorem c1_counterexample :
    (claimUpdate ⟨11, 1, 0, 0⟩ 20).2 +
      (claimUpdate (claimUpdate ⟨11, 1, 0, 0⟩ 20).1 40).2 = 0 ∧
    (claimUpdate ⟨11, 1, 0, 0⟩ 40).2 = 1 ∧
    (claimUpdate ⟨11, 1, 0, 0⟩ 20).2 +
      (claimUpdate (claimUpdate ⟨11, 1, 0, 0⟩ 20).1 40).2 ≠
      (claimUpdate ⟨11, 1, 0, 0⟩ 40).2 := by
  refine ⟨by decide, by decide, by decide⟩

/-- C1 (amended): for a constant stake `S` between checkpoints within
the `i64`/`u128`-safe range, splitting the interval at intermediate
Claim checkpoints yields a total that is at most (not always equal to)
the single-interval accrual `floor(S * (t2 - t1) * 250 / 10000)`, each
sub-interval being floored on its own; the totals coincide whenever
`S` is a multiple of 40 (so that `S * 250 / 10000` divides exactly). -/
theorem c1_split_accrual (S : Nat) (t : Int) (cs : List Int)
    (hasc : Ascending t cs) (hlo : -(2 ^ 63) ≤ t)
    (hhi : lastTime t cs < 2 ^ 63)
    (hd : lastTime t cs - t < 2 ^ 63)
    (hov : S * (lastTime t cs - t).toNat * 250 < 2 ^ 128) :
    splitAccrual S t cs ≤ rewardOf S (lastTime t cs) t ∧
    (S % 40 = 0 → splitAccrual S t cs = rewardOf S (lastTime t cs) t) := by
  induction cs generalizing t with
  | nil =>
    simp only [splitAccrual, lastTime]
    rw [rewardOf_eval S t t le_rfl (by omega) (by simp)]
    simp
  | cons c cs ih =>
    obtain ⟨htc, hasc2⟩ := hasc
    have hcL : c ≤ lastTime c cs := le_lastTime c cs hasc2
    have hLdef : lastTime t (c :: cs) = lastTime c cs := rfl
    rw [hLdef] at hhi hd hov ⊢
    have htL : t ≤ lastTime c cs := le_trans htc hcL
    have hd1 : c - t < 2 ^ 63 := by omega
    have hd2 : lastTime c cs - c < 2 ^ 63 := by omega
    have hsum : (c - t).toNat + (lastTime c cs - c).toNat
        = (lastTime c cs - t).toNat := by omega
    have hov1 : S * (c - t).toNat * 250 < 2 ^ 128 :=
      lt_of_le_of_lt
        (by have := Nat.mul_le_mul_right 250
              (Nat.mul_le_mul_left S (show (c - t).toNat ≤ (lastTime c cs - t).toNat by omega))
            omega) hov
    have hov2 : S * (lastTime c cs - c).toNat * 250 < 2 ^ 128 :=
      lt_of_le_of_lt
        (by have := Nat.mul_le_mul_right 250
              (Nat.mul_le_mul_left S (show (lastTime c cs - c).toNat ≤ (lastTime c cs - t).toNat by omega))
            omega) hov
    have ihc := ih c hasc2 (by omega) hhi hd2 hov2
    simp only [splitAccrual]
    rw [rewardOf_eval S c t htc hd1 hov1,
        rewardOf_eval S (lastTime c cs) t htL hd hov]
    constructor
    · calc S * (c - t).toNat * 250 / 10000 + splitAccrual S c cs
          ≤ S * (c - t).toNat * 250 / 10000 + rewardOf S (lastTime c cs) c := by
            exact Nat.add_le_add_left ihc.1 _
        _ = S * (c - t).toNat * 250 / 10000
              + S * (lastTime c cs - c).toNat * 250 / 10000 := by
            rw [rewardOf_eval S (lastTime c cs) c hcL hd2 hov2]
        _ ≤ (S * (c - t).toNat * 250 + S * (lastTime c cs - c).toNat * 250) / 10000 :=
            Nat.add_div_le_add_div _ _ _
        _ = S * (lastTime c cs - t).toNat * 250 / 10000 := by
            rw [show S * (c - t).toNat * 250 + S * (lastTime c cs - c).toNat * 250
                  = S * ((c - t).toNat + (lastTime c cs - c).toNat) * 250 by ring, hsum]
    · intro hS
      rw [ihc.2 hS, rewardOf_eval S (lastTime c cs) c hcL hd2 hov2,
          reward_exact_div _ _ hS, reward_exact_div _ _ hS, reward_exact_div _ _ hS,
          ← hsum]
      ring

/-- C1 witness: stake `S = 40` from `t = 0` with checkpoints at
`t = 20` and `t = 50`; the split total equals the whole-interval
accrual because `40` is a multiple of `40`. -/
theorem c1_split_accrual_witness :
    splitAccrual 40 0 [20, 50] = rewardOf 40 50 0 := by
  have h := c1_split_accrual 40 0 [20, 50]
    (by simp [Ascending]) (by norm_num)
    (by norm_num [lastTime]) (by norm_num [lastTime]) (by decide)
  have he := h.2 (by norm_num)
  simpa [lastTime] using he

/-! ### Observables over instruction results, and concrete fixtures -/

/-- Decoded stake record in the final state of a successful run. -/
def resultRecord (r : ExecResult StakeAccounts) : Option StakeData :=
  match r with
  | .ok a _ => decodeStakeData a.stakeDataInfo.data
  | _ => none

/-- Whether a run succeeded. -/
def ExecResult.isOk {σ : Type} : ExecResult σ → Bool
  | .ok _ _ => true
  | _ => false

/-- The custom error code of a failed run, when there is one. -/
def ExecResult.code {σ : Type} : ExecResult σ → Option Nat
  | .err (.custom n) _ => some n
  | _ => none

/-- The token transfers of a successful run. -/
def ExecResult.transfers {σ : Type} : ExecResult σ → List Transfer
  | .ok _ trs => trs
  | _ => []

/-- The final state carried by any run outcome. -/
def ExecResult.final {σ : Type} : ExecResult σ → σ
  | .ok s _ => s
  | .err _ s => s
  | .panicked s => s

/-- Whether a run panicked. -/
def ExecResult.isPanic {σ : Type} : ExecResult σ → Bool
  | .panicked _ => true
  | _ => false

/-- Concrete host context for witnesses and counterexamples: program id
7, stake PDA of key `k` at `1000 + k`, vault PDA at 500, associated
token address `2 * owner + 3 * mint + 1`, rent 10 lamports per byte,
clock at 40. -/
def testCtx : Ctx :=
  { programId := 7
    deriveStake := fun k => (1000 + k, 255)
    deriveVault := (500, 254)
    ata := fun o m => 2 * o + 3 * m + 1
    rentMinBalance := fun n => 10 * n
    now := 40 }

/-- Well-formed accounts for Stake/Withdraw/Claim under `testCtx`,
holding the record `sd` (staker key 11, record owned by the program,
both holding accounts owned by the token program 9). -/
def accountsWith (sd : StakeData) : StakeAccounts :=
  { payer := ⟨11, true, 0, 1000000, []⟩
    stakeDataInfo := ⟨1011, false, 7, 600, encodeStakeData sd⟩
    mintInfo := ⟨stakeTokenMint, false, 0, 0, []⟩
    vaultPdaInfo := ⟨500, false, 0, 0, []⟩
    vaultPdaMintHolderInfo := ⟨2 * 500 + 3 * stakeTokenMint + 1, false, 9, 0, []⟩
    vaultMintHolderInfo := ⟨2 * 11 + 3 * stakeTokenMint + 1, false, 9, 0, []⟩
    tokenInfo := ⟨9, false, 0, 0, []⟩
    assocAccountInfo := ⟨0, false, 0, 0, []⟩
    sysInfo := ⟨0, false, 0, 0, []⟩
    rentInfo := ⟨0, false, 0, 0, []⟩ }

set_option maxRecDepth 8000

/-- C2 — counterexample: Stake of 1 on an active record holding
`amount = 2^64 - 1` and `remained_reward = 2^64 - 1` at elapsed time 40
succeeds with no error: the `u64` addition wraps to `amount = 0` (not a
failure, not saturation at `2^64 - 1`), and the widened accrual
`2^64 - 1` is folded into `remained_reward` as
`(2^64 - 1 + 2^64 - 1) mod 2^64 = 2^64 - 2`, silently modulo `2^64`. -/
theorem c2_counterexample :
    (stakeProcess testCtx 1
        (accountsWith ⟨11, 2 ^ 64 - 1, 2 ^ 64 - 1, 0⟩)).isOk = true ∧
    resultRecord (stakeProcess testCtx 1
        (accountsWith ⟨11, 2 ^ 64 - 1, 2 ^ 64 - 1, 0⟩)) =
      some ⟨11, 0, 2 ^ 64 - 2, 40⟩ := by
  refine ⟨by decide, by decide⟩

/-! ### Success-path characterizations of the three staking arms -/

theorem stakeProcess_active (ctx : Ctx) (amt : Nat) (a : StakeAccounts) (sd : StakeData)
    (h1 : a.payer.isSigner = true)
    (h2 : a.stakeDataInfo.key = (ctx.deriveStake a.payer.key).1)
    (h3 : a.mintInfo.key = stakeTokenMint)
    (h4 : a.vaultPdaMintHolderInfo.key = ctx.ata ctx.deriveVault.1 a.mintInfo.key)
    (h5 : a.vaultMintHolderInfo.key = ctx.ata a.payer.key a.mintInfo.key)
    (h6 : a.stakeDataInfo.owner = ctx.programId)
    (h7 : decodeStakeData a.stakeDataInfo.data = some sd)
    (h8 : a.payer.key = sd.staker) :
    stakeProcess ctx amt a =
      .ok (provisionVaultHolder { a with stakeDataInfo := { a.stakeDataInfo with
          data := encodeStakeData (stakeUpdate sd amt ctx.now) } })
        [⟨a.vaultMintHolderInfo.key, a.vaultPdaMintHolderInfo.key, a.payer.key, amt⟩] := by
  simp only [stakeProcess, h1, h2, h3, h4, h5, h6, h7, h8]
  simp

theorem withdrawProcess_ok (ctx : Ctx) (amt : Nat) (a : StakeAccounts) (sd : StakeData)
    (h1 : a.payer.isSigner = true)
    (h2 : a.stakeDataInfo.key = (ctx.deriveStake a.payer.key).1)
    (h3 : a.stakeDataInfo.owner = ctx.programId)
    (h4 : a.mintInfo.key = stakeTokenMint)
    (h5 : a.vaultPdaMintHolderInfo.key = ctx.ata ctx.deriveVault.1 a.mintInfo.key)
    (h6 : a.vaultMintHolderInfo.key = ctx.ata a.payer.key a.mintInfo.key)
    (h7 : decodeStakeData a.stakeDataInfo.data = some sd)
    (h8 : a.payer.key = sd.staker)
    (h9 : amt ≤ sd.amount) :
    withdrawProcess ctx amt a =
      .ok (provisionUserHolder { a with stakeDataInfo := { a.stakeDataInfo with
          data := encodeStakeData (withdrawUpdate sd amt ctx.now) } })
        [⟨a.vaultPdaMintHolderInfo.key, a.vaultMintHolderInfo.key,
          a.vaultPdaInfo.key, amt⟩] := by
  simp only [withdrawProcess, h1, h2, h3, h4, h5, h6, h7, h8]
  rw [if_neg (show ¬ amt > sd.amount by omega)]
  simp

theorem claimProcess_ok (ctx : Ctx) (a : StakeAccounts) (sd : StakeData)
    (h1 : a.payer.isSigner = true)
    (h2 : a.stakeDataInfo.key = (ctx.deriveStake a.payer.key).1)
    (h3 : a.stakeDataInfo.owner = ctx.programId)
    (h4 : a.mintInfo.key = rewardTokenMint)
    (h5 : a.vaultPdaMintHolderInfo.key = ctx.ata ctx.deriveVault.1 a.mintInfo.key)
    (h5b : a.vaultPdaMintHolderInfo.owner = a.tokenInfo.key)
    (h6 : a.vaultMintHolderInfo.key = ctx.ata a.payer.key a.mintInfo.key)
    (h7 : decodeStakeData a.stakeDataInfo.data = some sd)
    (h8 : a.payer.key = sd.staker) :
    claimProcess ctx a =
      .ok (provisionUserHolder { a with stakeDataInfo := { a.stakeDataInfo with
          data := encodeStakeData (claimUpdate sd ctx.now).1 } })
        [⟨a.vaultPdaMintHolderInfo.key, a.vaultMintHolderInfo.key,
          a.vaultPdaInfo.key, (claimUpdate sd ctx.now).2⟩] := by
  simp only [claimProcess, h1, h2, h3, h4, h5, h5b, h6, h7, h8]
  simp

theorem provisionVaultHolder_stakeDataInfo (a : StakeAccounts) :
    (provisionVaultHolder a).stakeDataInfo = a.stakeDataInfo := by
  unfold provisionVaultHolder; split <;> rfl

theorem provisionUserHolder_stakeDataInfo (a : StakeAccounts) :
    (provisionUserHolder a).stakeDataInfo = a.stakeDataInfo := by
  unfold provisionUserHolder; split <;> rfl

/-- Well-formedness is preserved by the Stake record mutation. -/
theorem stakeUpdate_WF (sd : StakeData) (amt : Nat) (now : Int) (hwf : sd.WF)
    (hn1 : -(2 ^ 63) ≤ now) (hn2 : now < 2 ^ 63) : (stakeUpdate sd amt now).WF := by
  refine ⟨hwf.1, ?_, ?_, hn1, hn2⟩ <;>
    exact Nat.mod_lt _ (by norm_num)

/-- General wrapping description of a successful Stake on an active
record: `amount` advances modulo `2^64` and the widened accrual folds
into `remained_reward` modulo `2^64`. -/
theorem stakeProcess_wrapped (ctx : Ctx) (amt : Nat) (a : StakeAccounts) (sd : StakeData)
    (h1 : a.payer.isSigner = true)
    (h2 : a.stakeDataInfo.key = (ctx.deriveStake a.payer.key).1)
    (h3 : a.mintInfo.key = stakeTokenMint)
    (h4 : a.vaultPdaMintHolderInfo.key = ctx.ata ctx.deriveVault.1 a.mintInfo.key)
    (h5 : a.vaultMintHolderInfo.key = ctx.ata a.payer.key a.mintInfo.key)
    (h6 : a.stakeDataInfo.owner = ctx.programId)
    (h7 : decodeStakeData a.stakeDataInfo.data = some sd)
    (h8 : a.payer.key = sd.staker)
    (hwf : sd.WF) (hn1 : -(2 ^ 63) ≤ ctx.now) (hn2 : ctx.now < 2 ^ 63) :
    (stakeProcess ctx amt a).isOk = true ∧
    resultRecord (stakeProcess ctx amt a) =
      some { staker := sd.staker
             amount := (sd.amount + amt) % 2 ^ 64
             remained_reward :=
               (sd.remained_reward + rewardOf sd.amount ctx.now sd.last_claim_time) % 2 ^ 64
             last_claim_time := ctx.now } := by
  rw [stakeProcess_active ctx amt a sd h1 h2 h3 h4 h5 h6 h7 h8]
  have hdec := decode_encodeStakeData _ (stakeUpdate_WF sd amt ctx.now hwf hn1 hn2)
  have hmm : (sd.remained_reward + rewardOf sd.amount ctx.now sd.last_claim_time)
      % 2 ^ 128 % 2 ^ 64
      = (sd.remained_reward + rewardOf sd.amount ctx.now sd.last_claim_time) % 2 ^ 64 :=
    Nat.mod_mod_of_dvd _ ⟨2 ^ 64, by norm_num⟩
  refine ⟨rfl, ?_⟩
  simp only [resultRecord, provisionVaultHolder_stakeDataInfo]
  rw [hdec]
  simp only [stakeUpdate]
  norm_num

/-- C2 (amended): overflowing `u64` arithmetic on the record is not an
error and does not saturate: a Stake on an active record always
succeeds with `amount` advanced by the staked amount modulo `2^64`,
and the widened 128-bit accrual folded into `remained_reward` narrowed
modulo `2^64` — silent wraparound, exactly as the release build
executes it. -/
theorem c2_stake_wraps (ctx : Ctx) (amt : Nat) (a : StakeAccounts) (sd : StakeData)
    (h1 : a.payer.isSigner = true)
    (h2 : a.stakeDataInfo.key = (ctx.deriveStake a.payer.key).1)
    (h3 : a.mintInfo.key = stakeTokenMint)
    (h4 : a.vaultPdaMintHolderInfo.key = ctx.ata ctx.deriveVault.1 a.mintInfo.key)
    (h5 : a.vaultMintHolderInfo.key = ctx.ata a.payer.key a.mintInfo.key)
    (h6 : a.stakeDataInfo.owner = ctx.programId)
    (h7 : decodeStakeData a.stakeDataInfo.data = some sd)
    (h8 : a.payer.key = sd.staker)
    (hwf : sd.WF) (hn1 : -(2 ^ 63) ≤ ctx.now) (hn2 : ctx.now < 2 ^ 63) :
    (stakeProcess ctx amt a).isOk = true ∧
    resultRecord (stakeProcess ctx amt a) =
      some { staker := sd.staker
             amount := (sd.amount + amt) % 2 ^ 64
             remained_reward :=
               (sd.remained_reward + rewardOf sd.amount ctx.now sd.last_claim_time) % 2 ^ 64
             last_claim_time := ctx.now } :=
  stakeProcess_wrapped ctx amt a sd h1 h2 h3 h4 h5 h6 h7 h8 hwf hn1 hn2

/-- C2 witness: a small concrete successful Stake instantiating the
wrapping characterization. -/
theorem c2_stake_wraps_witness :
    (stakeProcess testCtx 5 (accountsWith ⟨11, 1, 0, 0⟩)).isOk = true ∧
    resultRecord (stakeProcess testCtx 5 (accountsWith ⟨11, 1, 0, 0⟩)) =
      some { staker := 11
             amount := (1 + 5) % 2 ^ 64
             remained_reward := (0 + rewardOf 1 testCtx.now 0) % 2 ^ 64
             last_claim_time := testCtx.now } :=
  c2_stake_wraps testCtx 5 (accountsWith ⟨11, 1, 0, 0⟩) ⟨11, 1, 0, 0⟩
    rfl rfl rfl rfl rfl rfl (by decide) rfl
    ⟨by norm_num, by norm_num, by norm_num, by decide, by decide⟩
    (by norm_num [testCtx]) (by norm_num [testCtx])

/-- Well-formedness is preserved by the Withdraw record mutation. -/
theorem withdrawUpdate_WF (sd : StakeData) (amt : Nat) (now : Int) (hwf : sd.WF)
    (hn1 : -(2 ^ 63) ≤ now) (hn2 : now < 2 ^ 63) : (withdrawUpdate sd amt now).WF := by
  refine ⟨hwf.1, ?_, ?_, hn1, hn2⟩
  · exact lt_of_le_of_lt (Nat.sub_le _ _) hwf.2.1
  · exact Nat.mod_lt _ (by norm_num)

/-- Well-formedness is preserved by the Claim record mutation. -/
theorem claimUpdate_WF (sd : StakeData) (now : Int) (hwf : sd.WF)
    (hn1 : -(2 ^ 63) ≤ now) (hn2 : now < 2 ^ 63) : (claimUpdate sd now).1.WF := by
  simp only [claimUpdate]
  exact ⟨hwf.1, hwf.2.1, by norm_num, hn1, hn2⟩

/-- C3: a Withdraw requesting strictly more than the staked amount
fails with the business-rule code 0x48 and leaves every account
untouched; a successful Withdraw subtracts exactly the requested
amount, so the unsigned amount never underflows
(`new amount + requested = old amount`). -/
theorem c3_withdraw_guard (ctx : Ctx) (amt : Nat) (a : StakeAccounts) (sd : StakeData)
    (h1 : a.payer.isSigner = true)
    (h2 : a.stakeDataInfo.key = (ctx.deriveStake a.payer.key).1)
    (h3 : a.stakeDataInfo.owner = ctx.programId)
    (h4 : a.mintInfo.key = stakeTokenMint)
    (h5 : a.vaultPdaMintHolderInfo.key = ctx.ata ctx.deriveVault.1 a.mintInfo.key)
    (h6 : a.vaultMintHolderInfo.key = ctx.ata a.payer.key a.mintInfo.key)
    (h7 : decodeStakeData a.stakeDataInfo.data = some sd)
    (h8 : a.payer.key = sd.staker)
    (hwf : sd.WF) (hn1 : -(2 ^ 63) ≤ ctx.now) (hn2 : ctx.now < 2 ^ 63) :
    (amt > sd.amount → withdrawProcess ctx amt a = .err (.custom 0x48) a) ∧
    (∀ nr, resultRecord (withdrawProcess ctx amt a) = some nr →
      nr.amount + amt = sd.amount ∧ nr.amount ≤ sd.amount) := by
  constructor
  · intro hgt
    simp only [withdrawProcess, h1, h2, h3, h4, h5, h6, h7, h8]
    simp [hgt]
  · intro nr hnr
    by_cases hle : amt ≤ sd.amount
    · rw [withdrawProcess_ok ctx amt a sd h1 h2 h3 h4 h5 h6 h7 h8 hle] at hnr
      simp only [resultRecord, provisionUserHolder_stakeDataInfo] at hnr
      rw [decode_encodeStakeData _ (withdrawUpdate_WF sd amt ctx.now hwf hn1 hn2)] at hnr
      cases hnr
      simp only [withdrawUpdate]
      omega
    · exfalso
      have : withdrawProcess ctx amt a = .err (.custom 0x48) a := by
        simp only [withdrawProcess, h1, h2, h3, h4, h5, h6, h7, h8]
        simp [show amt > sd.amount by omega]
      rw [this] at hnr
      simp [resultRecord] at hnr

/-- C3 witness: withdrawing 2 from a record of staked amount 1 fails
with code 0x48 and leaves the accounts unchanged. -/
theorem c3_withdraw_guard_witness :
    withdrawProcess testCtx 2 (accountsWith ⟨11, 1, 0, 0⟩) =
      .err (.custom 0x48) (accountsWith ⟨11, 1, 0, 0⟩) :=
  (c3_withdraw_guard testCtx 2 (accountsWith ⟨11, 1, 0, 0⟩) ⟨11, 1, 0, 0⟩
    rfl rfl rfl rfl rfl rfl (by decide) rfl
    ⟨by norm_num, by norm_num, by norm_num, by decide, by decide⟩
    (by norm_num [testCtx]) (by norm_num [testCtx])).1 (by norm_num)

/-- C4 — counterexample: a successful Claim on a record with
`amount = 2^64 - 1`, `remained_reward = 1` after 40 time units pays out
0, not the old `remained_reward` plus
`floor(amount * 40 * 250 / 10000) = 2^64 - 1` (their sum `2^64` is
narrowed `as u64` to 0). -/
theorem c4_counterexample :
    (claimProcess testCtx (accountsWith ⟨11, 2 ^ 64 - 1, 1, 0⟩)).isOk = true ∧
    ((claimProcess testCtx
        (accountsWith ⟨11, 2 ^ 64 - 1, 1, 0⟩)).transfers.map Transfer.amount) = [0] ∧
    1 + rewardOf (2 ^ 64 - 1) 40 0 = 2 ^ 64 := by
  refine ⟨by decide, by decide, by decide⟩

/-- C4 (amended): a successful Claim resets `remained_reward` to 0,
leaves `amount` unchanged, sets `last_claim_time` to now, and pays out
`(old remained_reward + floor(amount * (now - last) * 250 / 10000))`
reduced modulo `2^64` (the 128-bit sum is narrowed back into `u64`). -/
theorem c4_claim_payout (ctx : Ctx) (a : StakeAccounts) (sd : StakeData)
    (h1 : a.payer.isSigner = true)
    (h2 : a.stakeDataInfo.key = (ctx.deriveStake a.payer.key).1)
    (h3 : a.stakeDataInfo.owner = ctx.programId)
    (h4 : a.mintInfo.key = rewardTokenMint)
    (h5 : a.vaultPdaMintHolderInfo.key = ctx.ata ctx.deriveVault.1 a.mintInfo.key)
    (h5b : a.vaultPdaMintHolderInfo.owner = a.tokenInfo.key)
    (h6 : a.vaultMintHolderInfo.key = ctx.ata a.payer.key a.mintInfo.key)
    (h7 : decodeStakeData a.stakeDataInfo.data = some sd)
    (h8 : a.payer.key = sd.staker)
    (hwf : sd.WF) (hnl : sd.last_claim_time ≤ ctx.now) (hn2 : ctx.now < 2 ^ 63)
    (hd : ctx.now - sd.last_claim_time < 2 ^ 63)
    (hov : sd.amount * (ctx.now - sd.last_claim_time).toNat * 250 < 2 ^ 128) :
    (claimProcess ctx a).isOk = true ∧
    resultRecord (claimProcess ctx a) =
      some { staker := sd.staker, amount := sd.amount
             remained_reward := 0, last_claim_time := ctx.now } ∧
    (claimProcess ctx a).transfers =
      [⟨a.vaultPdaMintHolderInfo.key, a.vaultMintHolderInfo.key, a.vaultPdaInfo.key,
        (sd.remained_reward
          + sd.amount * (ctx.now - sd.last_claim_time).toNat * 250 / 10000) % 2 ^ 64⟩] := by
  have hn1 : -(2 ^ 63) ≤ ctx.now := le_trans hwf.2.2.2.1 hnl
  rw [claimProcess_ok ctx a sd h1 h2 h3 h4 h5 h5b h6 h7 h8]
  refine ⟨rfl, ?_, ?_⟩
  · simp only [resultRecord, provisionUserHolder_stakeDataInfo]
    rw [decode_encodeStakeData _ (claimUpdate_WF sd ctx.now hwf hn1 hn2)]
    rfl
  · simp only [ExecResult.transfers, claimUpdate]
    rw [rewardOf_eval sd.amount ctx.now sd.last_claim_time hnl hd hov]
    have := Nat.mod_mod_of_dvd
      (sd.remained_reward + sd.amount * (ctx.now - sd.last_claim_time).toNat * 250 / 10000)
      (show (2 ^ 64 : Nat) ∣ 2 ^ 128 from ⟨2 ^ 64, by norm_num⟩)
    simp only [this]

/-- C4 witness: concrete Claim paying out the carried reward plus the
fresh accrual modulo `2^64`. -/
theorem c4_claim_payout_witness :
    (claimProcess testCtx (accountsWith ⟨11, 1000, 7, 0⟩)).isOk = true ∧
    resultRecord (claimProcess testCtx (accountsWith ⟨11, 1000, 7, 0⟩)) =
      some { staker := 11, amount := 1000
             remained_reward := 0, last_claim_time := testCtx.now } ∧
    (claimProcess testCtx (accountsWith ⟨11, 1000, 7, 0⟩)).transfers =
      [⟨(accountsWith ⟨11, 1000, 7, 0⟩).vaultPdaMintHolderInfo.key,
        (accountsWith ⟨11, 1000, 7, 0⟩).vaultMintHolderInfo.key,
        (accountsWith ⟨11, 1000, 7, 0⟩).vaultPdaInfo.key,
        (7 + 1000 * (testCtx.now - 0).toNat * 250 / 10000) % 2 ^ 64⟩] :=
  c4_claim_payout testCtx (accountsWith ⟨11, 1000, 7, 0⟩) ⟨11, 1000, 7, 0⟩
    rfl rfl rfl rfl rfl rfl rfl (by decide) rfl
    ⟨by norm_num, by norm_num, by norm_num, by decide, by decide⟩
    (by norm_num [testCtx]) (by norm_num [testCtx]) (by norm_num [testCtx])
    (by decide)

/-! ### Sequences of Stake operations -/

/-- Fold a list of `(amount, time)` Stake steps over an active record
(each step is the active-branch mutation of `src/src/lib.rs` lines
176-183). -/
def applyStakes (sd : StakeData) : List (Nat × Int) → StakeData
  | [] => sd
  | (amt, t) :: rest => applyStakes (stakeUpdate sd amt t) rest

theorem applyStakes_append (sd : StakeData) (l1 l2 : List (Nat × Int)) :
    applyStakes sd (l1 ++ l2) = applyStakes (applyStakes sd l1) l2 := by
  induction l1 generalizing sd with
  | nil => rfl
  | cons p rest ih =>
    cases p
    simp only [List.cons_append, applyStakes]
    exact ih _

theorem applyStakes_staker (sd : StakeData) (l : List (Nat × Int)) :
    (applyStakes sd l).staker = sd.staker := by
  induction l generalizing sd with
  | nil => rfl
  | cons p rest ih => cases p; simp only [applyStakes, ih, stakeUpdate]

theorem applyStakes_amount (sd : StakeData) (l : List (Nat × Int))
    (h : sd.amount + (l.map Prod.fst).sum < 2 ^ 64) :
    (applyStakes sd l).amount = sd.amount + (l.map Prod.fst).sum := by
  induction l generalizing sd with
  | nil => simp [applyStakes]
  | cons p rest ih =>
    cases p with
    | mk amt t =>
      simp only [List.map_cons, List.sum_cons] at h
      simp only [applyStakes, List.map_cons, List.sum_cons]
      rw [ih]
      · simp only [stakeUpdate]
        rw [Nat.mod_eq_of_lt (by omega)]
        omega
      · simp only [stakeUpdate]
        rw [Nat.mod_eq_of_lt (by omega)]
        omega

/-- C5: starting from the record a first Stake of `a0` creates
(`lines 155-160`: `amount = a0, remained_reward = 0,
last_claim_time = t0`), any sequence of further Stake steps whose grand
total stays below `2^64` ends with `amount` equal to the sum of all
staked amounts; and at every intermediate step the accrual folded into
`remained_reward` is computed from the amount held *before* that
step's increment (`a0 +` the sum of the strictly earlier amounts),
never including the amount being staked. -/
theorem c5_stake_sequence (staker a0 : Nat) (t0 : Int) (steps : List (Nat × Int))
    (hsum : a0 + (steps.map Prod.fst).sum < 2 ^ 64) :
    (applyStakes ⟨staker, a0, 0, t0⟩ steps).amount = a0 + (steps.map Prod.fst).sum ∧
    ∀ pre amt t post, steps = pre ++ (amt, t) :: post →
      applyStakes ⟨staker, a0, 0, t0⟩ steps =
        applyStakes (stakeUpdate (applyStakes ⟨staker, a0, 0, t0⟩ pre) amt t) post ∧
      (stakeUpdate (applyStakes ⟨staker, a0, 0, t0⟩ pre) amt t).remained_reward =
        ((applyStakes ⟨staker, a0, 0, t0⟩ pre).remained_reward +
          rewardOf (a0 + (pre.map Prod.fst).sum) t
            (applyStakes ⟨staker, a0, 0, t0⟩ pre).last_claim_time) % 2 ^ 64 := by
  constructor
  · exact applyStakes_amount _ _ hsum
  · intro pre amt t post hsplit
    have hpre : a0 + (pre.map Prod.fst).sum < 2 ^ 64 := by
      subst hsplit
      simp only [List.map_append, List.sum_append, List.map_cons, List.sum_cons] at hsum
      omega
    have hamt : (applyStakes ⟨staker, a0, 0, t0⟩ pre).amount
        = a0 + (pre.map Prod.fst).sum := applyStakes_amount _ _ hpre
    refine ⟨by rw [hsplit, applyStakes_append]; rfl, ?_⟩
    simp only [stakeUpdate, hamt]
    exact Nat.mod_mod_of_dvd _ ⟨2 ^ 64, by norm_num⟩

/-- C5 witness: two further stakes of 500 and 0 on top of an initial
1000. -/
theorem c5_stake_sequence_witness :
    (applyStakes ⟨11, 1000, 0, 0⟩ [(500, 10), (0, 100)]).amount =
      1000 + (([(500, 10), (0, 100)] : List (Nat × Int)).map Prod.fst).sum :=
  (c5_stake_sequence 11 1000 0 [(500, 10), (0, 100)] (by decide)).1

/-! ### Address validation -/

/-- C6 — counterexample: a Stake whose supplied vault-authority account
(`vault_pda_info`, key 999) differs from the derived vault authority
(500) still succeeds and mutates the stake record: no arm of
Stake/Withdraw/Claim ever compares `vault_pda_info.key` against the
derived vault PDA, so an address mismatch on that account does not
fail with a mismatch code. -/
theorem c6_counterexample :
    ({ accountsWith ⟨11, 1, 0, 0⟩ with
        vaultPdaInfo := ⟨999, false, 0, 0, []⟩ } : StakeAccounts).vaultPdaInfo.key ≠
      testCtx.deriveVault.1 ∧
    (stakeProcess testCtx 5
      { accountsWith ⟨11, 1, 0, 0⟩ with
          vaultPdaInfo := ⟨999, false, 0, 0, []⟩ }).isOk = true := by
  refine ⟨by decide, by decide⟩

/-- C6 (amended): every account address the program does check — the
stake record account in all three staking arms, the vault and staker
holding accounts in all three staking arms, and the vault authority in
GenerateVault — fails with that arm's address-mismatch code when it
differs from the derived address, before any mutation (the error
carries the input state unchanged); the vault authority account is not
address-checked in Stake, Withdraw or Claim. -/
theorem c6_address_checks (ctx : Ctx) (amt : Nat) (a : StakeAccounts)
    (g : VaultAccounts) (hs : a.payer.isSigner = true) :
    (a.stakeDataInfo.key ≠ (ctx.deriveStake a.payer.key).1 →
      stakeProcess ctx amt a = .err (.custom 0x32) a ∧
      withdrawProcess ctx amt a = .err (.custom 0x42) a ∧
      claimProcess ctx a = .err (.custom 0x52) a) ∧
    (a.stakeDataInfo.key = (ctx.deriveStake a.payer.key).1 →
     a.mintInfo.key = stakeTokenMint →
     ctx.ata ctx.deriveVault.1 a.mintInfo.key ≠ a.vaultPdaMintHolderInfo.key →
      stakeProcess ctx amt a = .err (.custom 0x34) a) ∧
    (a.stakeDataInfo.key = (ctx.deriveStake a.payer.key).1 →
     a.mintInfo.key = stakeTokenMint →
     ctx.ata ctx.deriveVault.1 a.mintInfo.key = a.vaultPdaMintHolderInfo.key →
     ctx.ata a.payer.key a.mintInfo.key ≠ a.vaultMintHolderInfo.key →
      stakeProcess ctx amt a = .err (.custom 0x34) a) ∧
    (a.stakeDataInfo.key = (ctx.deriveStake a.payer.key).1 →
     a.stakeDataInfo.owner = ctx.programId →
     a.mintInfo.key = stakeTokenMint →
     ctx.ata ctx.deriveVault.1 a.mintInfo.key ≠ a.vaultPdaMintHolderInfo.key →
      withdrawProcess ctx amt a = .err (.custom 0x45) a) ∧
    (a.stakeDataInfo.key = (ctx.deriveStake a.payer.key).1 →
     a.stakeDataInfo.owner = ctx.programId →
     a.mintInfo.key = stakeTokenMint →
     ctx.ata ctx.deriveVault.1 a.mintInfo.key = a.vaultPdaMintHolderInfo.key →
     ctx.ata a.payer.key a.mintInfo.key ≠ a.vaultMintHolderInfo.key →
      withdrawProcess ctx amt a = .err (.custom 0x45) a) ∧
    (a.stakeDataInfo.key = (ctx.deriveStake a.payer.key).1 →
     a.stakeDataInfo.owner = ctx.programId →
     a.mintInfo.key = rewardTokenMint →
     ctx.ata ctx.deriveVault.1 a.mintInfo.key ≠ a.vaultPdaMintHolderInfo.key →
      claimProcess ctx a = .err (.custom 0x55) a) ∧
    (a.stakeDataInfo.key = (ctx.deriveStake a.payer.key).1 →
     a.stakeDataInfo.owner = ctx.programId →
     a.mintInfo.key = rewardTokenMint →
     ctx.ata ctx.deriveVault.1 a.mintInfo.key = a.vaultPdaMintHolderInfo.key →
     a.vaultPdaMintHolderInfo.owner = a.tokenInfo.key →
     ctx.ata a.payer.key a.mintInfo.key ≠ a.vaultMintHolderInfo.key →
      claimProcess ctx a = .err (.custom 0x56) a) ∧
    (g.pda.key ≠ ctx.deriveVault.1 →
      generateVaultProcess ctx g = .err (.custom 0x00) g) := by
  refine ⟨?_, ?_, ?_, ?_, ?_, ?_, ?_, ?_⟩
  · intro h
    refine ⟨?_, ?_, ?_⟩ <;>
      · simp only [stakeProcess, withdrawProcess, claimProcess, hs]
        simp [h]
  · intro k1 k2 h
    rw [k2] at h
    simp only [stakeProcess, hs, k1, k2]
    simp [h]
  · intro k1 k2 k3 h
    rw [k2] at k3 h
    simp only [stakeProcess, hs, k1, k2, k3]
    simp [h, k3]
  · intro k1 k2 k3 h
    rw [k3] at h
    simp only [withdrawProcess, hs, k1, k2, k3]
    simp [h]
  · intro k1 k2 k3 k4 h
    rw [k3] at k4 h
    simp only [withdrawProcess, hs, k1, k2, k3, k4]
    simp [h, k4]
  · intro k1 k2 k3 h
    rw [k3] at h
    simp only [claimProcess, hs, k1, k2, k3]
    simp [h]
  · intro k1 k2 k3 k4 k5 h
    rw [k3] at k4 h
    simp only [claimProcess, hs, k1, k2, k3, k4, k5]
    simp [h, k4]
  · intro h
    simp only [generateVaultProcess]
    simp [h]

/-- C6 witness: a Stake supplying a wrong stake-record address fails
with code 0x32 and the untouched input accounts. -/
theorem c6_address_checks_witness :
    stakeProcess testCtx 5
      { accountsWith ⟨11, 1, 0, 0⟩ with
          stakeDataInfo := ⟨77, false, 7, 600, encodeStakeData ⟨11, 1, 0, 0⟩⟩ } =
      .err (.custom 0x32)
        { accountsWith ⟨11, 1, 0, 0⟩ with
            stakeDataInfo := ⟨77, false, 7, 600, encodeStakeData ⟨11, 1, 0, 0⟩⟩ } :=
  ((c6_address_checks testCtx 5
      { accountsWith ⟨11, 1, 0, 0⟩ with
          stakeDataInfo := ⟨77, false, 7, 600, encodeStakeData ⟨11, 1, 0, 0⟩⟩ }
      ⟨⟨adminKey, true, 0, 1000000, []⟩, ⟨500, false, 0, 0, []⟩,
       ⟨0, false, 0, 0, []⟩, ⟨0, false, 0, 0, []⟩⟩
      (by decide)).1 (by decide)).1

/-! ### Error taxonomy -/

/-- Baseline valid accounts: record `⟨11, 1, 0, 0⟩` under `testCtx`. -/
def baseAccs : StakeAccounts := accountsWith ⟨11, 1, 0, 0⟩

/-- Baseline valid GenerateVault accounts under `testCtx`. -/
def baseVaultAccs : VaultAccounts :=
  ⟨⟨adminKey, true, 0, 1000000, []⟩, ⟨500, false, 0, 0, []⟩,
   ⟨0, false, 0, 0, []⟩, ⟨0, false, 0, 0, []⟩⟩

/-- C7 — counterexample: two different causes in the Claim arm share
error code 0x55: supplying a wrong vault-holding-account address (an
address mismatch) and supplying the correct address whose storage is
not owned by the token program (a state mismatch, "reward vault not
initialized") are indistinguishable to a caller branching on the
code. -/
theorem c7_counterexample :
    (claimProcess testCtx
      { baseAccs with vaultPdaMintHolderInfo := ⟨123, false, 9, 0, []⟩ }).code =
        some 0x55 ∧
    (claimProcess testCtx
      { baseAccs with vaultPdaMintHolderInfo :=
          ⟨2 * 500 + 3 * stakeTokenMint + 1, false, 42, 0, []⟩ }).code =
        some 0x55 ∧
    (123 : Nat) ≠ 2 * 500 + 3 * stakeTokenMint + 1 := by
  refine ⟨by decide, by decide, by decide⟩

/-- C7 (amended): each failure cause aborts with the stable code listed
below, and the codes are pairwise distinct between causes EXCEPT that
(i) in Stake the two holding-account address mismatches share 0x34,
(ii) in Withdraw they share 0x45, (iii) in Claim the vault-holder
address mismatch and the uninitialized reward vault share 0x55, and
(iv) in GenerateVault a non-administrator caller and a non-signing
caller share 0x02.  The conjunction exhibits one concrete run per
cause and the distinctness of the remaining code set. -/
theorem c7_error_codes :
    (stakeProcess testCtx 5 { baseAccs with payer := ⟨11, false, 0, 1000000, []⟩ }).code = some 0x31 ∧
    (stakeProcess testCtx 5 { baseAccs with stakeDataInfo := ⟨77, false, 7, 600, encodeStakeData ⟨11, 1, 0, 0⟩⟩ }).code = some 0x32 ∧
    (stakeProcess testCtx 5 { baseAccs with mintInfo := ⟨5, false, 0, 0, []⟩ }).code = some 0x33 ∧
    (stakeProcess testCtx 5 { baseAccs with vaultPdaMintHolderInfo := ⟨123, false, 9, 0, []⟩ }).code = some 0x34 ∧
    (stakeProcess testCtx 5 { baseAccs with vaultMintHolderInfo := ⟨124, false, 9, 0, []⟩ }).code = some 0x34 ∧
    (stakeProcess testCtx 5 { baseAccs with stakeDataInfo := ⟨1011, false, 7, 600, [1, 2, 3]⟩ }).code = some 0x35 ∧
    (stakeProcess testCtx 5 { baseAccs with stakeDataInfo := ⟨1011, false, 7, 600, encodeStakeData ⟨12, 1, 0, 0⟩⟩ }).code = some 0x36 ∧
    (withdrawProcess testCtx 1 { baseAccs with payer := ⟨11, false, 0, 1000000, []⟩ }).code = some 0x41 ∧
    (withdrawProcess testCtx 1 { baseAccs with stakeDataInfo := ⟨77, false, 7, 600, encodeStakeData ⟨11, 1, 0, 0⟩⟩ }).code = some 0x42 ∧
    (withdrawProcess testCtx 1 { baseAccs with stakeDataInfo := ⟨1011, false, 3, 600, encodeStakeData ⟨11, 1, 0, 0⟩⟩ }).code = some 0x43 ∧
    (withdrawProcess testCtx 1 { baseAccs with mintInfo := ⟨5, false, 0, 0, []⟩ }).code = some 0x44 ∧
    (withdrawProcess testCtx 1 { baseAccs with vaultPdaMintHolderInfo := ⟨123, false, 9, 0, []⟩ }).code = some 0x45 ∧
    (withdrawProcess testCtx 1 { baseAccs with vaultMintHolderInfo := ⟨124, false, 9, 0, []⟩ }).code = some 0x45 ∧
    (withdrawProcess testCtx 1 { baseAccs with stakeDataInfo := ⟨1011, false, 7, 600, [1, 2, 3]⟩ }).code = some 0x46 ∧
    (withdrawProcess testCtx 1 { baseAccs with stakeDataInfo := ⟨1011, false, 7, 600, encodeStakeData ⟨12, 1, 0, 0⟩⟩ }).code = some 0x47 ∧
    (withdrawProcess testCtx 2 baseAccs).code = some 0x48 ∧
    (claimProcess testCtx { baseAccs with payer := ⟨11, false, 0, 1000000, []⟩ }).code = some 0x51 ∧
    (claimProcess testCtx { baseAccs with stakeDataInfo := ⟨77, false, 7, 600, encodeStakeData ⟨11, 1, 0, 0⟩⟩ }).code = some 0x52 ∧
    (claimProcess testCtx { baseAccs with stakeDataInfo := ⟨1011, false, 3, 600, encodeStakeData ⟨11, 1, 0, 0⟩⟩ }).code = some 0x53 ∧
    (claimProcess testCtx { baseAccs with mintInfo := ⟨5, false, 0, 0, []⟩ }).code = some 0x54 ∧
    (claimProcess testCtx { baseAccs with vaultPdaMintHolderInfo := ⟨123, false, 9, 0, []⟩ }).code = some 0x55 ∧
    (claimProcess testCtx { baseAccs with vaultPdaMintHolderInfo := ⟨2 * 500 + 3 * stakeTokenMint + 1, false, 42, 0, []⟩ }).code = some 0x55 ∧
    (claimProcess testCtx { baseAccs with vaultMintHolderInfo := ⟨124, false, 9, 0, []⟩ }).code = some 0x56 ∧
    (claimProcess testCtx { baseAccs with stakeDataInfo := ⟨1011, false, 7, 600, [1, 2, 3]⟩ }).code = some 0x57 ∧
    (claimProcess testCtx { baseAccs with stakeDataInfo := ⟨1011, false, 7, 600, encodeStakeData ⟨12, 1, 0, 0⟩⟩ }).code = some 0x58 ∧
    (generateVaultProcess testCtx { baseVaultAccs with pda := ⟨501, false, 0, 0, []⟩ }).code = some 0x00 ∧
    (generateVaultProcess testCtx { baseVaultAccs with pda := ⟨500, false, 7, 0, []⟩ }).code = some 0x01 ∧
    (generateVaultProcess testCtx { baseVaultAccs with payer := ⟨12, true, 0, 1000000, []⟩ }).code = some 0x02 ∧
    (generateVaultProcess testCtx { baseVaultAccs with payer := ⟨adminKey, false, 0, 1000000, []⟩ }).code = some 0x02 ∧
    ([0x31, 0x32, 0x33, 0x34, 0x35, 0x36,
      0x41, 0x42, 0x43, 0x44, 0x45, 0x46, 0x47, 0x48,
      0x51, 0x52, 0x53, 0x54, 0x55, 0x56, 0x57, 0x58,
      0x00, 0x01, 0x02] : List Nat).Nodup := by
  decide

/-- C8: a successful GenerateVault implies the caller is the hard-coded
administrator, is a signer, and the vault authority storage was not yet
owned by the program; afterwards the storage is owned by the program at
the same address, and invoking GenerateVault again on the resulting
state fails with the already-initialized code 0x01, leaving the state
of the first call intact (the error carries it unchanged). -/
theorem c8_generate_vault (ctx : Ctx) (g g2 : VaultAccounts) (trs : List Transfer)
    (hok : generateVaultProcess ctx g = .ok g2 trs) :
    g.payer.key = adminKey ∧ g.payer.isSigner = true ∧ g.pda.owner ≠ ctx.programId ∧
    g2.pda.owner = ctx.programId ∧ g2.pda.key = g.pda.key ∧
    generateVaultProcess ctx g2 = .err (.custom 0x01) g2 := by
  simp only [generateVaultProcess] at hok
  by_cases hkey : g.pda.key = ctx.deriveVault.1
  · rw [if_neg (by simp [hkey])] at hok
    by_cases hown : g.pda.owner = ctx.programId
    · rw [if_pos hown] at hok
      exact absurd hok (by simp)
    · rw [if_neg hown] at hok
      by_cases hauth : g.payer.key ≠ adminKey ∨ ¬ g.payer.isSigner
      · rw [if_pos hauth] at hok
        exact absurd hok (by simp)
      · rw [if_neg hauth] at hok
        rw [not_or, not_not] at hauth
        obtain ⟨ha, hsg⟩ := hauth
        simp only [ExecResult.ok.injEq] at hok
        obtain ⟨hg2, -⟩ := hok
        subst hg2
        refine ⟨ha, by simpa using hsg, hown, rfl, rfl, ?_⟩
        simp [generateVaultProcess, hkey]
  · rw [if_pos hkey] at hok
    exact absurd hok (by simp)

/-- C8 witness: the concrete bootstrap under `testCtx` succeeds once
and fails with 0x01 when repeated. -/
theorem c8_generate_vault_witness :
    baseVaultAccs.payer.key = adminKey ∧ baseVaultAccs.payer.isSigner = true ∧
    baseVaultAccs.pda.owner ≠ testCtx.programId ∧
    (⟨⟨adminKey, true, 0, 999999, []⟩, ⟨500, false, 7, 1, []⟩,
      ⟨0, false, 0, 0, []⟩, ⟨0, false, 0, 0, []⟩⟩ : VaultAccounts).pda.owner =
      testCtx.programId ∧
    (⟨⟨adminKey, true, 0, 999999, []⟩, ⟨500, false, 7, 1, []⟩,
      ⟨0, false, 0, 0, []⟩, ⟨0, false, 0, 0, []⟩⟩ : VaultAccounts).pda.key =
      baseVaultAccs.pda.key ∧
    generateVaultProcess testCtx
      ⟨⟨adminKey, true, 0, 999999, []⟩, ⟨500, false, 7, 1, []⟩,
       ⟨0, false, 0, 0, []⟩, ⟨0, false, 0, 0, []⟩⟩ =
      .err (.custom 0x01)
        ⟨⟨adminKey, true, 0, 999999, []⟩, ⟨500, false, 7, 1, []⟩,
         ⟨0, false, 0, 0, []⟩, ⟨0, false, 0, 0, []⟩⟩ :=
  c8_generate_vault testCtx baseVaultAccs
    ⟨⟨adminKey, true, 0, 999999, []⟩, ⟨500, false, 7, 1, []⟩,
     ⟨0, false, 0, 0, []⟩, ⟨0, false, 0, 0, []⟩⟩ [] (by decide)

/-! ### Panic behavior of the router -/

theorem mapResult_isPanic {σ : Type} (f : σ → List AccountInfo)
    (rest : List AccountInfo) (r : ExecResult σ) :
    (mapResult f rest r).isPanic = r.isPanic := by
  cases r <;> rfl

theorem stakeProcess_isPanic (ctx : Ctx) (amt : Nat) (a : StakeAccounts) :
    (stakeProcess ctx amt a).isPanic = false := by
  simp only [stakeProcess]
  repeat' split
  all_goals rfl

theorem withdrawProcess_isPanic (ctx : Ctx) (amt : Nat) (a : StakeAccounts) :
    (withdrawProcess ctx amt a).isPanic = false := by
  simp only [withdrawProcess]
  repeat' split
  all_goals rfl

theorem claimProcess_isPanic (ctx : Ctx) (a : StakeAccounts) :
    (claimProcess ctx a).isPanic = false := by
  simp only [claimProcess]
  repeat' split
  all_goals rfl

theorem generateVaultProcess_isPanic (ctx : Ctx) (g : VaultAccounts) :
    (generateVaultProcess ctx g).isPanic = false := by
  simp only [generateVaultProcess]
  repeat' split
  all_goals rfl

/-- C9 — counterexample: the payload `[4]` does not decode to any of
the four operations (borsh discriminants are 0-3), and
`process_instruction` panics on it (`try_from_slice_unchecked(..)
.unwrap()` at line 50) instead of returning one of the taxonomy error
codes. -/
theorem c9_counterexample :
    decodeInstruction [4] = none ∧
    (processInstruction testCtx (listOfStakeAccounts baseAccs) [4]).isPanic = true := by
  refine ⟨by decide, by decide⟩

/-- C9 (amended): on every payload that does decode to one of the four
operations the program never panics — it either succeeds or returns an
error — while a byte sequence that fails to decode aborts with a panic
(the `unwrap`), not with a taxonomy error code. -/
theorem c9_no_panic_on_decodable (ctx : Ctx) (accounts : List AccountInfo)
    (data : List Nat) (instr : MarketplaceInstruction)
    (hdec : decodeInstruction data = some instr) :
    (processInstruction ctx accounts data).isPanic = false := by
  unfold processInstruction
  rw [hdec]
  cases instr with
  | generateVault =>
    cases h : takeVaultAccounts accounts with
    | none => rfl
    | some p =>
      cases p with
      | mk g rest =>
        simp only [mapResult_isPanic]
        exact generateVaultProcess_isPanic ctx g
  | stake amt =>
    cases h : takeStakeAccounts accounts with
    | none => rfl
    | some p =>
      cases p with
      | mk a rest =>
        simp only [mapResult_isPanic]
        exact stakeProcess_isPanic ctx amt a
  | withdraw amt =>
    cases h : takeStakeAccounts accounts with
    | none => rfl
    | some p =>
      cases p with
      | mk a rest =>
        simp only [mapResult_isPanic]
        exact withdrawProcess_isPanic ctx amt a
  | claim =>
    cases h : takeStakeAccounts accounts with
    | none => rfl
    | some p =>
      cases p with
      | mk a rest =>
        simp only [mapResult_isPanic]
        exact claimProcess_isPanic ctx a

/-- C9 witness: a decodable Claim payload never panics. -/
theorem c9_no_panic_witness :
    (processInstruction testCtx (listOfStakeAccounts baseAccs) [3]).isPanic = false :=
  c9_no_panic_on_decodable testCtx (listOfStakeAccounts baseAccs) [3] .claim (by decide)

/-! ### Clock running backwards -/

/-- Numeric floor bound used for the backwards-clock reward. -/
theorem pow_floor_bound_aux : (2 ^ 100 : Nat) ≤ (2 ^ 128 - 250 * 2 ^ 63) / 10000 := by
  decide

/-- Monotone version of the floor bound. -/
theorem pow_floor_bound (t : Nat) (h : t ≤ 2 ^ 63) :
    (2 ^ 100 : Nat) ≤ (2 ^ 128 - 250 * t) / 10000 :=
  le_trans pow_floor_bound_aux (Nat.div_le_div_right (by omega))

/-- With a unit stake and a clock strictly before the checkpoint (by at
most `2^63`), the reward expression reinterprets the negative `i64`
difference as an unsigned 128-bit value and yields at least `2^100`. -/
theorem rewardOf_negative_time (now last : Int) (hlt : now < last)
    (hd : last - now ≤ 2 ^ 63) :
    2 ^ 100 ≤ rewardOf 1 now last := by
  unfold rewardOf
  rw [i64Wrap_eq_self _ (by omega) (by omega)]
  have hu : u128OfI64 (now - last) = 2 ^ 128 - (last - now).toNat := by
    unfold u128OfI64
    omega
  rw [hu, one_mul]
  obtain ⟨t, ht1, ht2, hteq⟩ : ∃ t : Nat, 1 ≤ t ∧ t ≤ 2 ^ 63 ∧ (last - now).toNat = t :=
    ⟨(last - now).toNat, by omega, by omega, rfl⟩
  rw [hteq]
  rw [Nat.mod_eq_of_lt (show 2 ^ 128 - t < 2 ^ 128 by omega)]
  have hm : (2 ^ 128 - t) * 250 % 2 ^ 128 = 2 ^ 128 - 250 * t := by
    have hexp : (2 ^ 128 - t) * 250 = (2 ^ 128 - 250 * t) + 249 * 2 ^ 128 := by
      rw [Nat.sub_mul]
      omega
    rw [hexp, Nat.add_mul_mod_self_right,
        Nat.mod_eq_of_lt (show 2 ^ 128 - 250 * t < 2 ^ 128 by omega)]
  rw [hm]
  exact pow_floor_bound t ht2

/-- C10: when the clock timestamp read during a Stake is strictly
earlier than the stored `last_claim_time` (within `2^63`), the
instruction still succeeds — there is no `now >= last_claim_time`
precondition — and on a unit stake the negative signed difference,
reinterpreted as an unsigned 128-bit value, makes the computed reward
at least `2^100`, which is folded (mod `2^64`) into
`remained_reward`. -/
theorem c10_backwards_clock (ctx : Ctx) (amt : Nat) (a : StakeAccounts) (sd : StakeData)
    (h1 : a.payer.isSigner = true)
    (h2 : a.stakeDataInfo.key = (ctx.deriveStake a.payer.key).1)
    (h3 : a.mintInfo.key = stakeTokenMint)
    (h4 : a.vaultPdaMintHolderInfo.key = ctx.ata ctx.deriveVault.1 a.mintInfo.key)
    (h5 : a.vaultMintHolderInfo.key = ctx.ata a.payer.key a.mintInfo.key)
    (h6 : a.stakeDataInfo.owner = ctx.programId)
    (h7 : decodeStakeData a.stakeDataInfo.data = some sd)
    (h8 : a.payer.key = sd.staker)
    (hwf : sd.WF) (hamt : sd.amount = 1)
    (hlt : ctx.now < sd.last_claim_time)
    (hn1 : -(2 ^ 63) ≤ ctx.now)
    (hdist : sd.last_claim_time - ctx.now ≤ 2 ^ 63) :
    (stakeProcess ctx amt a).isOk = true ∧
    2 ^ 100 ≤ rewardOf sd.amount ctx.now sd.last_claim_time ∧
    resultRecord (stakeProcess ctx amt a) =
      some { staker := sd.staker
             amount := (sd.amount + amt) % 2 ^ 64
             remained_reward :=
               (sd.remained_reward + rewardOf sd.amount ctx.now sd.last_claim_time) % 2 ^ 64
             last_claim_time := ctx.now } := by
  have hn2 : ctx.now < 2 ^ 63 := lt_trans hlt hwf.2.2.2.2
  have hspec := stakeProcess_wrapped ctx amt a sd h1 h2 h3 h4 h5 h6 h7 h8 hwf hn1 hn2
  refine ⟨hspec.1, ?_, hspec.2⟩
  rw [hamt]
  exact rewardOf_negative_time ctx.now sd.last_claim_time hlt hdist

/-- C10 witness: a record checkpointed at time 100 processed at clock
time 40. -/
theorem c10_backwards_clock_witness :
    (stakeProcess testCtx 5 (accountsWith ⟨11, 1, 0, 100⟩)).isOk = true ∧
    2 ^ 100 ≤ rewardOf 1 testCtx.now 100 ∧
    resultRecord (stakeProcess testCtx 5 (accountsWith ⟨11, 1, 0, 100⟩)) =
      some { staker := 11
             amount := (1 + 5) % 2 ^ 64
             remained_reward := (0 + rewardOf 1 testCtx.now 100) % 2 ^ 64
             last_claim_time := testCtx.now } :=
  c10_backwards_clock testCtx 5 (accountsWith ⟨11, 1, 0, 100⟩) ⟨11, 1, 0, 100⟩
    rfl rfl rfl rfl rfl rfl (by decide) rfl
    ⟨by norm_num, by norm_num, by norm_num, by decide, by decide⟩
    rfl (by norm_num [testCtx]) (by norm_num [testCtx]) (by norm_num [testCtx])

end StakingProgram

